import Mathlib

/-!
# cyberd: error codes, application wiring and the gentx command

A shallow embedding of three source files of the repository:

* `cosmos/poc/app/types/errors.go`: the content-graph error codes,
* `cosmos/poc/app/app.go`: `NewCyberdApp`, `BeginBlocker`, `EndBlocker`,
* `daemon/cmd/gentx.go`: `accountInGenesis`, `prepareFlagsForTxCreateValidator`.

Calls into the cosmos-sdk, tendermint and viper libraries are modelled by small
definitions that record what the library call does to the value it is called on.
-/

namespace Cyberd

/-! ## `types/errors.go` -/

namespace Types

/-- The type `sdk.CodeType`: an unsigned machine integer, embedded as a natural number. -/
abbrev CodeType := Nat

/-- The type `sdk.CodespaceType`: an unsigned machine integer. -/
abbrev CodespaceType := Nat

/-- The type `sdk.ABCICodeType`: a 32-bit unsigned integer. -/
abbrev ABCICodeType := Nat

def CodeOK : CodeType := 0
def CodeLinkAlreadyExist : CodeType := 1
def CodeInvalidCid : CodeType := 2
def CodeCidNotFound : CodeType := 3

def CodespaceCBD : CodespaceType := 42

/-- The function `codeToDefaultMsg`: a `switch` over the code whose `default` arm is
`fmt.Sprintf("unknown error: code %d", code)`; `%d` of an unsigned integer is its
decimal rendering. -/
def codeToDefaultMsg (code : CodeType) : String :=
  if code = CodeInvalidCid then "invalid cid"
  else if code = CodeCidNotFound then "cid not found"
  else if code = CodeLinkAlreadyExist then "link already exists"
  else "unknown error: code " ++ Nat.repr code

/-- The value behind `sdk.Error`: the codespace, the code and the message it was built with. -/
structure SdkError where
  codespace : CodespaceType
  code : CodeType
  msg : String
  deriving DecidableEq, Repr

/-- The library constant `sdk.ABCICodeOK`. -/
def ABCICodeOK : ABCICodeType := 0

/-- The library function `sdk.ToABCICode` of the cosmos-sdk: the library's root codespace
`codespaceRoot` with `CodeOK` gives `ABCICodeOK`, every other pair gives
`(uint32(space) << 16) | uint32(code)`. -/
def ToABCICode (codespaceRoot : CodespaceType) (space : CodespaceType) (code : CodeType) :
    ABCICodeType :=
  if space = codespaceRoot ∧ code = CodeOK then ABCICodeOK
  else ((space % 2 ^ 32) <<< 16 ||| (code % 2 ^ 32)) % 2 ^ 32

/-- The library function `sdk.NewError` of the cosmos-sdk: it keeps the codespace and
the code, and keeps the message unless the message is empty, in which case the library
supplies its own default text for the code (an arm the callers in this file never reach). -/
def sdkNewError (libDefault : CodeType → String)
    (codespace : CodespaceType) (code : CodeType) (msg : String) : SdkError :=
  { codespace := codespace, code := code, msg := if msg = "" then libDefault code else msg }

/-- The function `newError`. -/
def newError (libDefault : CodeType → String)
    (codespace : CodespaceType) (code : CodeType) : SdkError :=
  let msg := codeToDefaultMsg code
  sdkNewError libDefault codespace code msg

/-- The function `LinkAlreadyExistsCode`. -/
def LinkAlreadyExistsCode (codespaceRoot : CodespaceType) : ABCICodeType :=
  ToABCICode codespaceRoot CodespaceCBD CodeLinkAlreadyExist

/-- The function `ErrInvalidCid`. -/
def ErrInvalidCid (libDefault : CodeType → String) : SdkError :=
  newError libDefault CodespaceCBD CodeInvalidCid

/-- The function `ErrCidNotFound`. -/
def ErrCidNotFound (libDefault : CodeType → String) : SdkError :=
  newError libDefault CodespaceCBD CodeCidNotFound

/-- Reads a list of decimal digit characters back, most significant digit first,
starting from the value `acc` already read. -/
def readDecimal (acc : Nat) : List Char → Nat
  | [] => acc
  | c :: cs => readDecimal (acc * 10 + (c.toNat - 48)) cs

end Types

/-! ## `app/app.go` -/

namespace App

/-- Raw bytes, as a list of byte values. -/
abbrev Bytes := List Nat

/-- The contents of the durable key-value stores, by store name. -/
abbrev Stores := List (String × List (Bytes × Bytes))

/-- The library type `sdk.KVStoreKey`, built by `sdk.NewKVStoreKey(name)`. -/
structure KVStoreKey where
  name : String
  deriving DecidableEq, Repr

/-- The library function `sdk.NewKVStoreKey`. -/
def NewKVStoreKey (name : String) : KVStoreKey := { name := name }

/-- The struct `CyberdAppDbKeys`: seven pointer fields, `none` for a nil pointer. -/
structure CyberdAppDbKeys where
  main : Option KVStoreKey
  acc : Option KVStoreKey
  accIndex : Option KVStoreKey
  cidIndex : Option KVStoreKey
  inLinks : Option KVStoreKey
  outLinks : Option KVStoreKey
  rank : Option KVStoreKey
  deriving DecidableEq, Repr

/-- The message handlers of the repository, each named after the constructor that
builds it (`NewBankHandler`, `NewLinksHandler`; packages `bank` and `storage`). -/
inductive Handler
  | bank
  | links
  deriving DecidableEq, Repr

/-- The library type `baseapp.router`: the routes in the order they were added. -/
structure Router where
  routes : List (String × Handler)
  deriving DecidableEq, Repr

/-- The library predicate `isAlpha` of `baseapp/router.go`: the regular expression
`^[a-zA-Z]+$`. -/
def isAlpha (r : String) : Bool :=
  !r.data.isEmpty && r.data.all Char.isAlpha

/-- The library method `router.AddRoute`: it panics on a route that is not alphabetic
and otherwise appends the route. -/
def Router.AddRoute (rtr : Router) (r : String) (h : Handler) : Except String Router :=
  if !isAlpha r then
    Except.error "route expressions can only contain alphabet characters"
  else
    Except.ok { routes := rtr.routes ++ [(r, h)] }

/-- The loop of the library method `router.Route`: the handler of the first route whose
tag equals `path`, `none` (nil) when there is none. -/
def routeLoop (path : String) : List (String × Handler) → Option Handler
  | [] => none
  | (r, h) :: rest => if r = path then some h else routeLoop path rest

/-- The library method `router.Route`. -/
def Router.Route (rtr : Router) (path : String) : Option Handler :=
  routeLoop path rtr.routes

/-- What the library does with one message of a transaction (`baseapp.runMsgs`): it
looks the handler up by the message's type tag; without a handler the message is
rejected as an unknown request and nothing is invoked, otherwise the handler runs. -/
inductive Dispatch
  | unroutable (tag : String)
  | invoke (h : Handler)
  deriving DecidableEq, Repr

/-- The routing step of the library method `baseapp.runMsgs`. -/
def dispatch (rtr : Router) (tag : String) : Dispatch :=
  match rtr.Route tag with
  | none => Dispatch.unroutable tag
  | some h => Dispatch.invoke h

/-- The part of the library type `BaseApp` that `baseAppOptions` configure (the
library's options `SetPruning` and `SetMinimumFees`). -/
structure BaseAppConfig where
  pruning : String
  minimumFees : String
  deriving DecidableEq, Repr

/-- Modelled from the spec: the in-memory mirror (`InMemoryStorage`, package
`storage`, which is not among the sources). It is a derived copy of the Store
Registry that holds nothing before `Load`, and `Load` fills it by a full scan. -/
structure InMemoryStorage where
  content : Option Stores
  deriving DecidableEq, Repr

/-- Modelled from the spec: `NewInMemoryStorage` (package `storage`) builds the
mirror with nothing loaded. -/
def NewInMemoryStorage : InMemoryStorage := { content := none }

/-- Modelled from the spec: `InMemoryStorage.Load` scans the Store Registry and keeps
what it read. -/
def InMemoryStorage.Load (_m : InMemoryStorage) (stores : Stores) : InMemoryStorage :=
  { content := some stores }

/-- The library type `baseapp.BaseApp`, as far as `NewCyberdApp` touches it. -/
structure BaseApp where
  name : String
  config : BaseAppConfig
  router : Router
  mounted : List KVStoreKey
  stores : Stores
  initChainer : Bool
  beginBlocker : Bool
  endBlocker : Bool
  anteHandler : Bool
  sealed : Bool
  deriving DecidableEq, Repr

/-- The library function `baseapp.NewBaseApp`: a fresh unsealed app with an empty
router and no store mounted, on which each option has been run in turn. -/
def NewBaseApp (name : String) (options : List (BaseAppConfig → BaseAppConfig)) : BaseApp :=
  { name := name
    config := options.foldl (fun c o => o c) { pruning := "", minimumFees := "" }
    router := { routes := [] }
    mounted := []
    stores := []
    initChainer := false
    beginBlocker := false
    endBlocker := false
    anteHandler := false
    sealed := false }

/-- The library method `BaseApp.MountStoresIAVL`: mounts each key in argument order. -/
def BaseApp.MountStoresIAVL (b : BaseApp) (keys : List KVStoreKey) : BaseApp :=
  { b with mounted := b.mounted ++ keys }

/-- The library method `BaseApp.Seal`. -/
def BaseApp.Seal (b : BaseApp) : BaseApp := { b with sealed := true }

/-- The struct `CyberdApp`: the embedded `BaseApp`, the store keys and the mirror. The
codec, mappers and keepers carry no state of their own and are left out. -/
structure CyberdApp where
  base : BaseApp
  dbKeys : CyberdAppDbKeys
  memStorage : InMemoryStorage
  deriving DecidableEq, Repr

/-- What surrounds one run of `NewCyberdApp`: the options passed in, the contents of
the database `db`, and what `LoadLatestVersion` will answer on it (`none` for a nil
error, `some msg` for an error whose `Error()` is `msg`). -/
structure Env where
  baseAppOptions : List (BaseAppConfig → BaseAppConfig)
  db : Stores
  loadLatestVersionErr : Option String

/-- The calls `NewCyberdApp` makes, in a form that can be logged. -/
inductive Event
  | makeCodec
  | newKVStoreKey (name : String)
  | newCidIndexStorage
  | newLinksStorage (key : String)
  | newRankStorage
  | newBaseApp (name : String)
  | newAccountMapper
  | newKeeper
  | newInMemoryStorage
  | addRoute (tag : String)
  | setInitChainer
  | setBeginBlocker
  | setEndBlocker
  | setAnteHandler
  | mountStoresIAVL (names : List String)
  | loadLatestVersion (main : String)
  | exit (msg : String)
  | memStorageLoad
  | seal
  deriving DecidableEq, Repr

/-- How a run of `NewCyberdApp` ends: it returns the app, `cmn.Exit` halts the process
with a message, or a library call panics. Each carries the log of the calls made. -/
inductive Outcome
  | returned (app : CyberdApp) (log : List Event)
  | exited (msg : String) (log : List Event)
  | panicked (msg : String) (log : List Event)

def appName : String := "CyberdApp"

/-- The function `NewCyberdApp`, statement by statement. -/
def NewCyberdApp (env : Env) : Outcome :=
  let log : List Event := [Event.makeCodec]
  let kMain := NewKVStoreKey "main"
  let kAcc := NewKVStoreKey "acc"
  let kCidIndex := NewKVStoreKey "cid_index"
  let kInLinks := NewKVStoreKey "in_links"
  let kOutLinks := NewKVStoreKey "out_links"
  let kRank := NewKVStoreKey "rank"
  let dbKeys : CyberdAppDbKeys :=
    { main := some kMain, acc := some kAcc, accIndex := none, cidIndex := some kCidIndex,
      inLinks := some kInLinks, outLinks := some kOutLinks, rank := some kRank }
  let log := log ++ [Event.newKVStoreKey "main", Event.newKVStoreKey "acc",
    Event.newKVStoreKey "cid_index", Event.newKVStoreKey "in_links",
    Event.newKVStoreKey "out_links", Event.newKVStoreKey "rank"]
  let log := log ++ [Event.newCidIndexStorage, Event.newLinksStorage kInLinks.name,
    Event.newLinksStorage kOutLinks.name, Event.newRankStorage]
  let base := NewBaseApp appName env.baseAppOptions
  let log := log ++ [Event.newBaseApp appName]
  let log := log ++ [Event.newAccountMapper, Event.newKeeper]
  let memStorage := NewInMemoryStorage
  let log := log ++ [Event.newInMemoryStorage]
  match base.router.AddRoute "bank" Handler.bank with
  | Except.error msg => Outcome.panicked msg log
  | Except.ok rtr =>
    let log := log ++ [Event.addRoute "bank"]
    match rtr.AddRoute "link" Handler.links with
    | Except.error msg => Outcome.panicked msg log
    | Except.ok rtr =>
      let log := log ++ [Event.addRoute "link"]
      let base := { base with router := rtr }
      let base := { base with initChainer := true }
      let base := { base with beginBlocker := true }
      let base := { base with endBlocker := true }
      let base := { base with anteHandler := true }
      let log := log ++ [Event.setInitChainer, Event.setBeginBlocker, Event.setEndBlocker,
        Event.setAnteHandler]
      let base := base.MountStoresIAVL [kMain, kAcc, kCidIndex, kInLinks, kOutLinks, kRank]
      let log := log ++ [Event.mountStoresIAVL [kMain.name, kAcc.name, kCidIndex.name,
        kInLinks.name, kOutLinks.name, kRank.name]]
      let log := log ++ [Event.loadLatestVersion kMain.name]
      match env.loadLatestVersionErr with
      | some msg => Outcome.exited msg (log ++ [Event.exit msg])
      | none =>
        let base := { base with stores := env.db }
        let memStorage := memStorage.Load base.stores
        let log := log ++ [Event.memStorageLoad]
        let base := base.Seal
        let log := log ++ [Event.seal]
        Outcome.returned { base := base, dbKeys := dbKeys, memStorage := memStorage } log

/-- The log of calls of a run. -/
def Outcome.log : Outcome → List Event
  | Outcome.returned _ log => log
  | Outcome.exited _ log => log
  | Outcome.panicked _ log => log

/-- The store names handed to `MountStoresIAVL` in a run, in mount order. -/
def mountedStores : List Event → List String
  | [] => []
  | Event.mountStoresIAVL names :: rest => names ++ mountedStores rest
  | _ :: rest => mountedStores rest

/-- The store keys of the five datasets accounts, cidIndex, inLinks, outLinks and rank. -/
def CyberdAppDbKeys.datasetKeys (k : CyberdAppDbKeys) : List (Option KVStoreKey) :=
  [k.acc, k.cidIndex, k.inLinks, k.outLinks, k.rank]

/-- The library type `sdk.Context`, as far as the block hooks could read it. -/
structure Context where
  isCheckTx : Bool
  blockHeight : Int
  deriving DecidableEq, Repr

/-- The library type `abci.RequestBeginBlock`. -/
structure RequestBeginBlock where
  hash : Bytes
  height : Int
  deriving DecidableEq, Repr

/-- The library type `abci.RequestEndBlock`. -/
structure RequestEndBlock where
  height : Int
  deriving DecidableEq, Repr

/-- The library type `abci.ResponseBeginBlock`; the Go literal with no field set is
the value with every field empty. -/
structure ResponseBeginBlock where
  tags : List (Bytes × Bytes)
  deriving DecidableEq, Repr

/-- The library type `abci.ResponseEndBlock`. -/
structure ResponseEndBlock where
  validatorUpdates : List (Bytes × Int)
  consensusParamUpdates : Option Bytes
  tags : List (Bytes × Bytes)
  deriving DecidableEq, Repr

/-- The Go literal `abci.ResponseBeginBlock{}`. -/
def ResponseBeginBlock.empty : ResponseBeginBlock := { tags := [] }

/-- The Go literal `abci.ResponseEndBlock{}`. -/
def ResponseEndBlock.empty : ResponseEndBlock :=
  { validatorUpdates := [], consensusParamUpdates := none, tags := [] }

/-- The method `CyberdApp.BeginBlocker`: the response, and the app after the call. -/
def CyberdApp.BeginBlocker (app : CyberdApp) (_ctx : Context) (_req : RequestBeginBlock) :
    ResponseBeginBlock × CyberdApp :=
  (ResponseBeginBlock.empty, app)

/-- The method `CyberdApp.EndBlocker`: the response, and the app after the call. -/
def CyberdApp.EndBlocker (app : CyberdApp) (_ctx : Context) (_req : RequestEndBlock) :
    ResponseEndBlock × CyberdApp :=
  (ResponseEndBlock.empty, app)

/-- The contents of one named store. -/
def storeContents (stores : Stores) (name : String) : List (Bytes × Bytes) :=
  match stores.find? (fun p => p.1 = name) with
  | some p => p.2
  | none => []

/-- The six store names in the order `NewCyberdApp` mounts them. -/
def mountOrder : List String := ["main", "acc", "cid_index", "in_links", "out_links", "rank"]

/-- The log of a run of `NewCyberdApp` up to and including `LoadLatestVersion`. -/
def logBeforeLoad : List Event :=
  [Event.makeCodec,
   Event.newKVStoreKey "main", Event.newKVStoreKey "acc", Event.newKVStoreKey "cid_index",
   Event.newKVStoreKey "in_links", Event.newKVStoreKey "out_links", Event.newKVStoreKey "rank",
   Event.newCidIndexStorage, Event.newLinksStorage "in_links", Event.newLinksStorage "out_links",
   Event.newRankStorage, Event.newBaseApp "CyberdApp", Event.newAccountMapper, Event.newKeeper,
   Event.newInMemoryStorage, Event.addRoute "bank", Event.addRoute "link",
   Event.setInitChainer, Event.setBeginBlocker, Event.setEndBlocker, Event.setAnteHandler,
   Event.mountStoresIAVL mountOrder, Event.loadLatestVersion "main"]

/-- The app a run of `NewCyberdApp` returns. -/
def returnedApp (env : Env) : CyberdApp :=
  { base :=
      { name := "CyberdApp"
        config := env.baseAppOptions.foldl (fun c o => o c) { pruning := "", minimumFees := "" }
        router := { routes := [("bank", Handler.bank), ("link", Handler.links)] }
        mounted := mountOrder.map NewKVStoreKey
        stores := env.db
        initChainer := true
        beginBlocker := true
        endBlocker := true
        anteHandler := true
        sealed := true }
    dbKeys :=
      { main := some (NewKVStoreKey "main"), acc := some (NewKVStoreKey "acc"),
        accIndex := none, cidIndex := some (NewKVStoreKey "cid_index"),
        inLinks := some (NewKVStoreKey "in_links"),
        outLinks := some (NewKVStoreKey "out_links"), rank := some (NewKVStoreKey "rank") }
    memStorage := { content := some env.db } }

/-- A run on an empty database whose store load succeeds. -/
def emptyEnv : Env := { baseAppOptions := [], db := [], loadLatestVersionErr := none }

/-- A run whose store load fails with the message "corrupt db". -/
def failingEnv : Env :=
  { baseAppOptions := [], db := [], loadLatestVersionErr := some "corrupt db" }

/-- An app, as `NewCyberdApp` returns it, over stores that hold the link 0 → 1 in both
link indices and an empty rank store. -/
def linkedApp : CyberdApp :=
  returnedApp
    { baseAppOptions := []
      db := [("in_links", [([1], [0])]), ("out_links", [([0], [1])]), ("rank", [])]
      loadLatestVersionErr := none }

end App

/-! ## `daemon/cmd/gentx.go` -/

namespace Cmd

def defaultAmount : String := "100cyb"
def defaultCommissionRate : String := "0.1"
def defaultCommissionMaxRate : String := "0.2"
def defaultCommissionMaxChangeRate : String := "0.01"
def defaultMinSelfDelegation : String := "1"

/-! The flag names are constants of the libraries (`tmcli`, `client`, `cli`) and of
package `cmd`; each is the name of a command-line flag. -/

def HomeFlag : String := "home"
def flagClientHome : String := "home-client"
def FlagChainID : String := "chain-id"
def FlagFrom : String := "from"
def FlagName : String := "name"
def FlagNodeID : String := "node-id"
def FlagIP : String := "ip"
def FlagPubKey : String := "pubkey"
def FlagGenesisFormat : String := "genesis-format"
def FlagAmount : String := "amount"
def FlagMoniker : String := "moniker"
def FlagCommissionRate : String := "commission-rate"
def FlagCommissionMaxRate : String := "commission-max-rate"
def FlagCommissionMaxChangeRate : String := "commission-max-change-rate"
def FlagMinSelfDelegation : String := "min-self-delegation"

/-- A value held by viper: the function under study stores strings and one boolean. -/
inductive FlagValue
  | str (s : String)
  | bool (b : Bool)
  deriving DecidableEq, Repr

/-- The conversion `cast.ToString` that `viper.GetString` applies to the value it finds. -/
def FlagValue.asString : FlagValue → String
  | FlagValue.str s => s
  | FlagValue.bool true => "true"
  | FlagValue.bool false => "false"

/-- The state of the viper registry: the values by key, the most recent `Set` first. -/
abbrev Viper := List (String × FlagValue)

/-- The lookup behind `viper.GetString`: the most recent value of the key. -/
def viperFind (key : String) : Viper → Option FlagValue
  | [] => none
  | (k, x) :: rest => if k = key then some x else viperFind key rest

/-- The library function `viper.GetString`: the value of the key as a string, the
empty string when the key has no value. -/
def GetString (v : Viper) (key : String) : String :=
  match viperFind key v with
  | some x => x.asString
  | none => ""

/-- The library function `viper.Set`: the new value takes precedence over any older one. -/
def Set (v : Viper) (key : String) (value : FlagValue) : Viper :=
  (key, value) :: v

/-- The function `prepareFlagsForTxCreateValidator`, statement by statement.
`valPubKeyBech32` is `sdk.MustBech32ifyConsPub(valPubKey)`; `config` is not used by the
function. -/
def prepareFlagsForTxCreateValidator (v : Viper) (nodeID ip chainID : String)
    (valPubKeyBech32 : String) : Viper :=
  let v := Set v HomeFlag (FlagValue.str (GetString v flagClientHome))
  let v := Set v FlagChainID (FlagValue.str chainID)
  let v := Set v FlagFrom (FlagValue.str (GetString v FlagName))
  let v := Set v FlagNodeID (FlagValue.str nodeID)
  let v := Set v FlagIP (FlagValue.str ip)
  let v := Set v FlagPubKey (FlagValue.str valPubKeyBech32)
  let v := Set v FlagGenesisFormat (FlagValue.bool true)
  let v := if GetString v FlagAmount = "" then
    Set v FlagAmount (FlagValue.str defaultAmount) else v
  let v := if GetString v FlagMoniker = "" then
    Set v FlagMoniker (FlagValue.str (GetString v FlagName)) else v
  let v := if GetString v FlagCommissionRate = "" then
    Set v FlagCommissionRate (FlagValue.str defaultCommissionRate) else v
  let v := if GetString v FlagCommissionMaxRate = "" then
    Set v FlagCommissionMaxRate (FlagValue.str defaultCommissionMaxRate) else v
  let v := if GetString v FlagCommissionMaxChangeRate = "" then
    Set v FlagCommissionMaxChangeRate (FlagValue.str defaultCommissionMaxChangeRate) else v
  let v := if GetString v FlagMinSelfDelegation = "" then
    Set v FlagMinSelfDelegation (FlagValue.str defaultMinSelfDelegation) else v
  v

/-- The first seven statements of `prepareFlagsForTxCreateValidator`: the flags it sets
whatever they held. -/
def fixedFlags (v : Viper) (nodeID ip chainID : String) (valPubKeyBech32 : String) : Viper :=
  let v := Set v HomeFlag (FlagValue.str (GetString v flagClientHome))
  let v := Set v FlagChainID (FlagValue.str chainID)
  let v := Set v FlagFrom (FlagValue.str (GetString v FlagName))
  let v := Set v FlagNodeID (FlagValue.str nodeID)
  let v := Set v FlagIP (FlagValue.str ip)
  let v := Set v FlagPubKey (FlagValue.str valPubKeyBech32)
  Set v FlagGenesisFormat (FlagValue.bool true)

/-- One `if viper.GetString(key) == "" { viper.Set(key, value) }` statement. -/
def fillIfEmpty (v : Viper) (key value : String) : Viper :=
  if GetString v key = "" then Set v key (FlagValue.str value) else v

/-- The library type `sdk.AccAddress`: a byte slice. -/
abbrev AccAddress := List Nat

/-- The library method `AccAddress.Equals`: two empty addresses are equal, otherwise
the bytes are compared. -/
def AccAddress.Equals (aa aa2 : AccAddress) : Bool :=
  if aa.isEmpty && aa2.isEmpty then true else decide (aa = aa2)

/-- The library type `sdk.Coin`: a denomination and an arbitrary-precision amount. -/
structure Coin where
  denom : String
  amount : Int
  deriving DecidableEq, Repr

/-- The library type `sdk.Coins`. -/
abbrev Coins := List Coin

/-- The library method `Coins.AmountOf`: a binary search by denomination over the
coins, which the library keeps sorted by denomination. -/
def AmountOf : Coins → String → Int
  | [], _ => 0
  | [coin], denom => if coin.denom = denom then coin.amount else 0
  | c0 :: c1 :: cs, denom =>
    let coins := c0 :: c1 :: cs
    let midIdx := coins.length / 2
    have hmid : midIdx < coins.length := Nat.div_lt_self (by simp [coins]) (by decide)
    let coin := coins[midIdx]
    if denom < coin.denom then AmountOf (coins.take midIdx) denom
    else if denom = coin.denom then coin.amount
    else AmountOf (coins.drop (midIdx + 1)) denom
termination_by coins => coins.length
decreasing_by
  all_goals simp_wf
  all_goals omega

/-- An account of the genesis file (`app.GenesisAccount`): an address and an `int64`
amount. -/
structure GenesisAccount where
  address : AccAddress
  amount : Int
  deriving DecidableEq, Repr

/-- The part of `app.GenesisState` that `accountInGenesis` reads: the account list and
`StakingData.Params.BondDenom`. -/
structure GenesisState where
  accounts : List GenesisAccount
  bondDenom : String
  deriving DecidableEq, Repr

/-- The two errors `accountInGenesis` builds with `fmt.Errorf`, each with the values
its message is formatted from. -/
inductive GenTxError
  | insufficientFunds (key : AccAddress) (accAmount : Int) (bondDenom : String) (wanted : Int)
  | notInGenesis (key : AccAddress)
  deriving DecidableEq, Repr

/-- The loop of `accountInGenesis`: an error when the loop returns early, otherwise the
value of `accountIsInGenesis` when the loop is left. -/
def accountLoop (bondDenom : String) (key : AccAddress) (coins : Coins) :
    List GenesisAccount → Except GenTxError Bool
  | [] => Except.ok false
  | acc :: rest =>
    if AccAddress.Equals acc.address key then
      if AmountOf coins bondDenom > acc.amount then
        Except.error
          (GenTxError.insufficientFunds key acc.amount bondDenom (AmountOf coins bondDenom))
      else Except.ok true
    else accountLoop bondDenom key coins rest

/-- The function `accountInGenesis`: `none` for a nil error. -/
def accountInGenesis (genesisState : GenesisState) (key : AccAddress) (coins : Coins) :
    Option GenTxError :=
  let bondDenom := genesisState.bondDenom
  match accountLoop bondDenom key coins genesisState.accounts with
  | Except.error e => some e
  | Except.ok accountIsInGenesis =>
    if accountIsInGenesis then none else some (GenTxError.notInGenesis key)

/-- The amount of the coin of denomination `denom` among `coins`, zero without one. -/
def amountIn (coins : Coins) (denom : String) : Int :=
  match coins.find? (fun c => decide (c.denom = denom)) with
  | some c => c.amount
  | none => 0

/-- The coins are sorted by strictly increasing denomination, as every `sdk.Coins`
that `sdk.ParseCoins` returns is. -/
def SortedCoins (coins : Coins) : Prop :=
  coins.Pairwise (fun a b => a.denom < b.denom)

/-- A genesis state with three accounts, two of them with the address `[7]`, and bond
denomination "cyb". -/
def sampleGenesis : GenesisState :=
  { accounts := [⟨[1, 2], 50⟩, ⟨[7], 100⟩, ⟨[7], 5⟩], bondDenom := "cyb" }

/-- The coins 9 atom and 100 cyb, sorted by denomination. -/
def sampleCoins : Coins := [⟨"atom", 9⟩, ⟨"cyb", 100⟩]

end Cmd

/-! ## Lemmas on the decimal rendering -/

namespace Types

theorem digitChar_toNat_sub (k : Nat) (hk : k < 10) : (Nat.digitChar k).toNat - 48 = k := by
  interval_cases k <;> rfl

theorem readDecimal_cons (acc : Nat) (c : Char) (cs : List Char) :
    readDecimal acc (c :: cs) = readDecimal (acc * 10 + (c.toNat - 48)) cs := rfl

theorem toDigitsCore_succ (fuel n : Nat) (ds : List Char) :
    Nat.toDigitsCore 10 (fuel + 1) n ds =
      if n / 10 = 0 then Nat.digitChar (n % 10) :: ds
      else Nat.toDigitsCore 10 fuel (n / 10) (Nat.digitChar (n % 10) :: ds) := by
  rw [Nat.toDigitsCore]

theorem readDecimal_toDigitsCore (fuel : Nat) :
    ∀ (n : Nat) (ds : List Char), n < fuel →
      readDecimal 0 (Nat.toDigitsCore 10 fuel n ds) = readDecimal n ds := by
  induction fuel with
  | zero => intro n ds h; omega
  | succ fuel ih =>
    intro n ds h
    have hd : (Nat.digitChar (n % 10)).toNat - 48 = n % 10 :=
      digitChar_toNat_sub _ (Nat.mod_lt _ (by decide))
    rw [toDigitsCore_succ]
    by_cases h0 : n / 10 = 0
    · rw [if_pos h0]
      have hn : n % 10 = n := Nat.mod_eq_of_lt (by omega)
      rw [readDecimal_cons, hd, hn, Nat.zero_mul, Nat.zero_add]
    · rw [if_neg h0, ih (n / 10) _ (by omega), readDecimal_cons, hd]
      have hn : n / 10 * 10 + n % 10 = n := by omega
      rw [hn]

theorem readDecimal_repr (n : Nat) : readDecimal 0 (Nat.repr n).data = n := by
  unfold Nat.repr Nat.toDigits
  simp only [List.asString]
  rw [readDecimal_toDigitsCore (n + 1) n [] (by omega)]
  rfl

theorem repr_injective {n m : Nat} (h : Nat.repr n = Nat.repr m) : n = m := by
  have := congrArg (fun s => readDecimal 0 s.data) h
  simpa [readDecimal_repr] using this

theorem unknown_msg_injective {n m : Nat}
    (h : "unknown error: code " ++ Nat.repr n = "unknown error: code " ++ Nat.repr m) :
    n = m := by
  apply repr_injective
  have hd := congrArg String.data h
  simp only [String.data_append] at hd
  exact String.ext (List.append_cancel_left hd)

theorem unknown_msg_head (n : Nat) :
    ("unknown error: code " ++ Nat.repr n).data.head? = some 'u' := by
  simp only [String.data_append]
  rfl

theorem known_ne_unknown (s : String) (n : Nat) (hs : s.data.head? ≠ some 'u') :
    s ≠ "unknown error: code " ++ Nat.repr n := by
  intro h
  apply hs
  rw [h]
  exact unknown_msg_head n

theorem codeToDefaultMsg_cases (c : CodeType) :
    (c = 2 ∧ codeToDefaultMsg c = "invalid cid") ∨
    (c = 3 ∧ codeToDefaultMsg c = "cid not found") ∨
    (c = 1 ∧ codeToDefaultMsg c = "link already exists") ∨
    (c ≠ 1 ∧ c ≠ 2 ∧ c ≠ 3 ∧ codeToDefaultMsg c = "unknown error: code " ++ Nat.repr c) := by
  unfold codeToDefaultMsg CodeInvalidCid CodeCidNotFound CodeLinkAlreadyExist
  by_cases c2 : c = 2
  · exact Or.inl ⟨c2, if_pos c2⟩
  · by_cases c3 : c = 3
    · exact Or.inr (Or.inl ⟨c3, by rw [if_neg c2, if_pos c3]⟩)
    · by_cases c1 : c = 1
      · exact Or.inr (Or.inr (Or.inl ⟨c1, by rw [if_neg c2, if_neg c3, if_pos c1]⟩))
      · exact Or.inr (Or.inr (Or.inr ⟨c1, c2, c3, by rw [if_neg c2, if_neg c3, if_neg c1]⟩))

theorem codeToDefaultMsg_eq_imp (c d : CodeType)
    (h : codeToDefaultMsg c = codeToDefaultMsg d) : c = d := by
  rcases codeToDefaultMsg_cases c with ⟨hc, mc⟩ | ⟨hc, mc⟩ | ⟨hc, mc⟩ | ⟨_, _, _, mc⟩ <;>
    rcases codeToDefaultMsg_cases d with ⟨hd, md⟩ | ⟨hd, md⟩ | ⟨hd, md⟩ | ⟨_, _, _, md⟩ <;>
    rw [mc, md] at h <;>
    first
      | exact hc.trans hd.symm
      | exact absurd h (by decide)
      | exact absurd h (known_ne_unknown _ _ (by decide))
      | exact absurd h.symm (known_ne_unknown _ _ (by decide))
      | exact unknown_msg_injective h

end Types

/-! ## Theorems on `types/errors.go` -/

namespace Types

/-- C7: each content-graph error kind has its own fixed code and message in codespace 42:
`ErrInvalidCid` is (42, 2, "invalid cid"), `ErrCidNotFound` is (42, 3, "cid not found"),
the link-already-exists kind has code 1 with message "link already exists", and
`LinkAlreadyExistsCode` is the ABCI code 42 * 65536 + 1, which is not the OK code 0. -/
theorem error_kinds_fixed (libDefault : CodeType → String) (codespaceRoot : CodespaceType) :
    ErrInvalidCid libDefault = { codespace := 42, code := 2, msg := "invalid cid" } ∧
    ErrCidNotFound libDefault = { codespace := 42, code := 3, msg := "cid not found" } ∧
    CodeLinkAlreadyExist = 1 ∧
    codeToDefaultMsg CodeLinkAlreadyExist = "link already exists" ∧
    LinkAlreadyExistsCode codespaceRoot = 42 * 65536 + 1 ∧
    LinkAlreadyExistsCode codespaceRoot ≠ ABCICodeOK ∧ ABCICodeOK = 0 := by
  have hcode : LinkAlreadyExistsCode codespaceRoot = 42 * 65536 + 1 := by
    unfold LinkAlreadyExistsCode ToABCICode
    rw [if_neg (fun h => absurd h.2 (by decide))]
    rfl
  refine ⟨?_, ?_, rfl, ?_, hcode, ?_, rfl⟩
  · simp [ErrInvalidCid, newError, sdkNewError, codeToDefaultMsg, CodespaceCBD, CodeInvalidCid]
  · simp [ErrCidNotFound, newError, sdkNewError, codeToDefaultMsg, CodespaceCBD,
      CodeCidNotFound, CodeInvalidCid]
  · simp [codeToDefaultMsg, CodeLinkAlreadyExist, CodeInvalidCid, CodeCidNotFound]
  · rw [hcode]; decide

/-- C10: `codeToDefaultMsg` is injective over all error codes: two distinct codes have
different messages, and a code other than 1, 2 and 3 is rendered as
"unknown error: code N" with N the code in decimal. -/
theorem codeToDefaultMsg_injective (c d : CodeType) (h : c ≠ d) :
    codeToDefaultMsg c ≠ codeToDefaultMsg d ∧
    (c ≠ 1 → c ≠ 2 → c ≠ 3 → codeToDefaultMsg c = "unknown error: code " ++ Nat.repr c) := by
  refine ⟨fun he => h (codeToDefaultMsg_eq_imp c d he), fun h1 h2 h3 => ?_⟩
  rcases codeToDefaultMsg_cases c with ⟨hc, _⟩ | ⟨hc, _⟩ | ⟨hc, _⟩ | ⟨_, _, _, mc⟩
  · exact absurd hc h2
  · exact absurd hc h3
  · exact absurd hc h1
  · exact mc

/-- C10 at the known code 1 and the unknown codes 7 and 70. -/
theorem codeToDefaultMsg_injective_witness :
    codeToDefaultMsg 1 ≠ codeToDefaultMsg 7 ∧
    codeToDefaultMsg 7 ≠ codeToDefaultMsg 70 ∧
    codeToDefaultMsg 70 = "unknown error: code 70" :=
  ⟨(codeToDefaultMsg_injective 1 7 (by decide)).1,
   (codeToDefaultMsg_injective 7 70 (by decide)).1,
   (codeToDefaultMsg_injective 70 7 (by decide)).2 (by decide) (by decide) (by decide)⟩

end Types

end Cyberd

/-! ## Lemmas on `app/app.go` -/

namespace Cyberd.App

theorem isAlpha_bank : isAlpha "bank" = true := by decide

theorem isAlpha_link : isAlpha "link" = true := by decide

theorem NewCyberdApp_of_loaded (env : Env) (h : env.loadLatestVersionErr = none) :
    NewCyberdApp env = Outcome.returned (returnedApp env) (logBeforeLoad ++ [Event.memStorageLoad, Event.seal]) := by
  simp only [NewCyberdApp, Router.AddRoute, NewBaseApp, isAlpha_bank, isAlpha_link, h]
  rfl

theorem NewCyberdApp_of_load_error (env : Env) (msg : String)
    (h : env.loadLatestVersionErr = some msg) :
    NewCyberdApp env = Outcome.exited msg (logBeforeLoad ++ [Event.exit msg]) := by
  simp only [NewCyberdApp, Router.AddRoute, NewBaseApp, isAlpha_bank, isAlpha_link, h]
  rfl

end Cyberd.App

/-! ## Theorems on `app/app.go` -/

namespace Cyberd.App

/-- C1 (the code departs from it): at an app whose link stores hold the edge 0 → 1 and
whose rank store is empty, `EndBlocker` returns the empty end-block response, with no
validator update, no parameter update and no tag, and leaves the app as it was, the rank
store still empty: no rank is calculated, written or returned. -/
theorem EndBlocker_returns_empty :
    (CyberdApp.EndBlocker linkedApp { isCheckTx := false, blockHeight := 1 } { height := 1 }).1
        = { validatorUpdates := [], consensusParamUpdates := none, tags := [] } ∧
    (CyberdApp.EndBlocker linkedApp { isCheckTx := false, blockHeight := 1 } { height := 1 }).2
        = linkedApp ∧
    storeContents linkedApp.base.stores "out_links" = [([0], [1])] ∧
    storeContents
      (CyberdApp.EndBlocker linkedApp { isCheckTx := false, blockHeight := 1 }
        { height := 1 }).2.base.stores "rank" = [] := by
  refine ⟨rfl, rfl, ?_, ?_⟩ <;> decide

/-- C2: the router of the app that `NewCyberdApp` returns maps "bank" to the bank handler
and "link" to the links handler and no other tag to any handler; a message with any other
tag is rejected as unroutable, with no handler to invoke. -/
theorem dispatch_table_exact (env : Env) (app : CyberdApp) (log : List Event)
    (h : NewCyberdApp env = Outcome.returned app log) :
    app.base.router.Route "bank" = some Handler.bank ∧
    app.base.router.Route "link" = some Handler.links ∧
    (∀ tag : String, (app.base.router.Route tag).isSome = true ↔ (tag = "bank" ∨ tag = "link")) ∧
    (∀ tag : String, tag ≠ "bank" → tag ≠ "link" →
      app.base.router.Route tag = none ∧
      dispatch app.base.router tag = Dispatch.unroutable tag) := by
  cases hl : env.loadLatestVersionErr with
  | some msg => rw [NewCyberdApp_of_load_error env msg hl] at h; cases h
  | none =>
    rw [NewCyberdApp_of_loaded env hl] at h
    cases h
    have key : ∀ tag : String, tag ≠ "bank" → tag ≠ "link" →
        (returnedApp env).base.router.Route tag = none := by
      intro tag hb hk
      simp only [returnedApp, Router.Route, routeLoop]
      rw [if_neg (Ne.symm hb), if_neg (Ne.symm hk)]
    refine ⟨rfl, rfl, ?_, ?_⟩
    · intro tag
      constructor
      · intro hs
        by_contra hne
        rw [not_or] at hne
        rw [key tag hne.1 hne.2] at hs
        exact absurd hs (by decide)
      · rintro (rfl | rfl) <;> rfl
    · intro tag hb hk
      refine ⟨key tag hb hk, ?_⟩
      simp only [dispatch, key tag hb hk]

/-- C2 at a run on an empty database: the tag "stake" is unroutable. -/
theorem dispatch_table_exact_witness :
    NewCyberdApp emptyEnv = Outcome.returned (returnedApp emptyEnv)
        (logBeforeLoad ++ [Event.memStorageLoad, Event.seal]) ∧
    dispatch (returnedApp emptyEnv).base.router "stake" = Dispatch.unroutable "stake" :=
  ⟨NewCyberdApp_of_loaded emptyEnv rfl,
   ((dispatch_table_exact emptyEnv _ _ (NewCyberdApp_of_loaded emptyEnv rfl)).2.2.2
      "stake" (by decide) (by decide)).2⟩

/-- C3: when `LoadLatestVersion` returns an error, `NewCyberdApp` halts the process with
the error's message as its last call, the mirror's `Load` is never called and no app is
returned; when it returns no error, `NewCyberdApp` does not halt and returns a sealed
app. -/
theorem load_error_halts (env : Env) :
    (∀ msg : String, env.loadLatestVersionErr = some msg →
      ∃ log, NewCyberdApp env = Outcome.exited msg log ∧
        log.getLast? = some (Event.exit msg) ∧
        Event.memStorageLoad ∉ log ∧
        ∀ app log2, NewCyberdApp env ≠ Outcome.returned app log2) ∧
    (env.loadLatestVersionErr = none →
      ∃ app log, NewCyberdApp env = Outcome.returned app log ∧
        app.base.sealed = true ∧
        ∀ msg : String, Event.exit msg ∉ log) := by
  constructor
  · intro msg hl
    refine ⟨_, NewCyberdApp_of_load_error env msg hl, ?_, ?_, ?_⟩
    · simp [logBeforeLoad]
    · simp [logBeforeLoad]
    · intro app log2 h2
      rw [NewCyberdApp_of_load_error env msg hl] at h2
      cases h2
  · intro hl
    refine ⟨_, _, NewCyberdApp_of_loaded env hl, rfl, ?_⟩
    intro msg
    simp [logBeforeLoad]

/-- C3 at a run whose store load fails with "corrupt db", and at a run on an empty
database. -/
theorem load_error_halts_witness :
    (∃ log, NewCyberdApp failingEnv = Outcome.exited "corrupt db" log ∧
        log.getLast? = some (Event.exit "corrupt db") ∧
        Event.memStorageLoad ∉ log ∧
        ∀ app log2, NewCyberdApp failingEnv ≠ Outcome.returned app log2) ∧
    (∃ app log, NewCyberdApp emptyEnv = Outcome.returned app log ∧
        app.base.sealed = true ∧
        ∀ msg : String, Event.exit msg ∉ log) :=
  ⟨(load_error_halts failingEnv).1 "corrupt db" rfl, (load_error_halts emptyEnv).2 rfl⟩

/-- C4: in a run of `NewCyberdApp` that returns an app, the mirror is constructed exactly
once and its `Load` is called exactly once; before that call every store key created
has been mounted and the latest version has been loaded, and the app is sealed only
after it. -/
theorem mirror_loaded_once (env : Env) (app : CyberdApp) (log : List Event)
    (h : NewCyberdApp env = Outcome.returned app log) :
    log.count Event.newInMemoryStorage = 1 ∧
    log.count Event.memStorageLoad = 1 ∧
    ∃ pre post names, log = pre ++ Event.memStorageLoad :: post ∧
      Event.newInMemoryStorage ∈ pre ∧
      Event.mountStoresIAVL names ∈ pre ∧
      (∀ name : String, Event.newKVStoreKey name ∈ log → name ∈ names) ∧
      app.base.mounted.map KVStoreKey.name = names ∧
      Event.loadLatestVersion "main" ∈ pre ∧
      Event.seal ∉ pre ∧
      Event.seal ∈ post := by
  cases hl : env.loadLatestVersionErr with
  | some msg => rw [NewCyberdApp_of_load_error env msg hl] at h; cases h
  | none =>
    rw [NewCyberdApp_of_loaded env hl] at h
    cases h
    refine ⟨by decide, by decide, logBeforeLoad, [Event.seal], mountOrder, ?_, by decide,
      by decide, ?_, rfl, by decide, by decide, by decide⟩
    · simp
    · intro name hn
      simp [logBeforeLoad] at hn
      rcases hn with rfl | rfl | rfl | rfl | rfl | rfl <;> decide

/-- C4 at a run on an empty database. -/
theorem mirror_loaded_once_witness :
    NewCyberdApp emptyEnv = Outcome.returned (returnedApp emptyEnv)
        (logBeforeLoad ++ [Event.memStorageLoad, Event.seal]) ∧
    (logBeforeLoad ++ [Event.memStorageLoad, Event.seal]).count Event.memStorageLoad = 1 :=
  ⟨NewCyberdApp_of_loaded emptyEnv rfl,
   (mirror_loaded_once emptyEnv _ _ (NewCyberdApp_of_loaded emptyEnv rfl)).2.1⟩

/-- C5 as stated fails: in the run on an empty database the app has six stores mounted,
the store "main" among them, which is the store of none of the five datasets. -/
theorem mounted_stores_not_five :
    ∃ app log, NewCyberdApp emptyEnv = Outcome.returned app log ∧
      app.base.mounted.length = 6 ∧
      some (NewKVStoreKey "main") ∈ app.base.mounted.map some ∧
      some (NewKVStoreKey "main") ∉ app.dbKeys.datasetKeys ∧
      ¬ (app.base.mounted.map some).Perm app.dbKeys.datasetKeys := by
  refine ⟨_, _, NewCyberdApp_of_loaded emptyEnv rfl, by decide, by decide, by decide, ?_⟩
  intro hp
  exact absurd hp.length_eq (by decide)

/-- C5 (amended): in every run, `NewCyberdApp` creates six store keys and mounts exactly
these six, in the fixed order main, acc, cid_index, in_links, out_links, rank, whatever
the input: the main store first, then one store for each of the five datasets; the
`accIndex` key is never created. -/
theorem mounted_stores_fixed (env : Env) :
    mountedStores (NewCyberdApp env).log =
        ["main", "acc", "cid_index", "in_links", "out_links", "rank"] ∧
    (∀ name : String, Event.newKVStoreKey name ∈ (NewCyberdApp env).log ↔
        name ∈ mountedStores (NewCyberdApp env).log) ∧
    (∀ app log, NewCyberdApp env = Outcome.returned app log →
        app.base.mounted.map KVStoreKey.name =
          ["main", "acc", "cid_index", "in_links", "out_links", "rank"] ∧
        app.base.mounted.map some = app.dbKeys.main :: app.dbKeys.datasetKeys ∧
        app.dbKeys.accIndex = none) := by
  cases hl : env.loadLatestVersionErr with
  | some msg =>
    rw [NewCyberdApp_of_load_error env msg hl]
    refine ⟨by simp [Outcome.log, logBeforeLoad, mountedStores, mountOrder], ?_, ?_⟩
    · intro name
      simp [Outcome.log, logBeforeLoad, mountedStores, mountOrder]
    · intro app log h; cases h
  | none =>
    rw [NewCyberdApp_of_loaded env hl]
    refine ⟨by simp [Outcome.log, logBeforeLoad, mountedStores, mountOrder], ?_, ?_⟩
    · intro name
      simp [Outcome.log, logBeforeLoad, mountedStores, mountOrder]
    · intro app log h
      cases h
      exact ⟨rfl, rfl, rfl⟩

/-- C5 (amended) at a run on an empty database. -/
theorem mounted_stores_fixed_witness :
    NewCyberdApp emptyEnv = Outcome.returned (returnedApp emptyEnv)
        (logBeforeLoad ++ [Event.memStorageLoad, Event.seal]) ∧
    (returnedApp emptyEnv).base.mounted.map KVStoreKey.name =
        ["main", "acc", "cid_index", "in_links", "out_links", "rank"] :=
  ⟨NewCyberdApp_of_loaded emptyEnv rfl,
   ((mounted_stores_fixed emptyEnv).2.2 _ _ (NewCyberdApp_of_loaded emptyEnv rfl)).1⟩

/-- C6: for every app state, context and begin-block request, `BeginBlocker` returns the
empty begin-block response and the app after the call is the app before it: the same
stores, the same mirror. -/
theorem BeginBlocker_no_effect (app : CyberdApp) (ctx : Context) (req : RequestBeginBlock) :
    (app.BeginBlocker ctx req).1 = { tags := [] } ∧
    (app.BeginBlocker ctx req).2 = app ∧
    (app.BeginBlocker ctx req).2.base.stores = app.base.stores ∧
    (app.BeginBlocker ctx req).2.memStorage = app.memStorage :=
  ⟨rfl, rfl, rfl, rfl⟩

end Cyberd.App

/-! ## Lemmas on `daemon/cmd/gentx.go` -/

namespace Cyberd.Cmd

theorem GetString_Set (v : Viper) (k k2 : String) (x : FlagValue) :
    GetString (Set v k x) k2 = if k = k2 then x.asString else GetString v k2 := by
  unfold GetString Set
  simp only [viperFind]
  split_ifs <;> rfl

theorem GetString_fillIfEmpty (v : Viper) (k k2 x : String) :
    GetString (fillIfEmpty v k x) k2 =
      if k = k2 then (if GetString v k = "" then x else GetString v k)
      else GetString v k2 := by
  unfold fillIfEmpty
  by_cases hk : k = k2
  · subst hk
    by_cases he : GetString v k = ""
    · simp only [he, if_true, GetString_Set, FlagValue.asString]
    · simp only [he, if_false, if_true]
  · by_cases he : GetString v k = ""
    · simp only [he, if_true, GetString_Set, hk, if_false]
    · simp only [he, if_false, hk]

theorem prepareFlags_eq (v : Viper) (nodeID ip chainID valPubKeyBech32 : String) :
    prepareFlagsForTxCreateValidator v nodeID ip chainID valPubKeyBech32 =
      fillIfEmpty (fillIfEmpty (fillIfEmpty (fillIfEmpty
        (fillIfEmpty (fillIfEmpty (fixedFlags v nodeID ip chainID valPubKeyBech32)
            "amount" "100cyb")
          "moniker" (GetString (fillIfEmpty (fixedFlags v nodeID ip chainID valPubKeyBech32)
            "amount" "100cyb") "name"))
        "commission-rate" "0.1") "commission-max-rate" "0.2")
        "commission-max-change-rate" "0.01") "min-self-delegation" "1" := rfl

theorem GetString_fixedFlags (v : Viper) (nodeID ip chainID valPubKeyBech32 k : String)
    (h1 : k ≠ "home") (h2 : k ≠ "chain-id") (h3 : k ≠ "from") (h4 : k ≠ "node-id")
    (h5 : k ≠ "ip") (h6 : k ≠ "pubkey") (h7 : k ≠ "genesis-format") :
    GetString (fixedFlags v nodeID ip chainID valPubKeyBech32) k = GetString v k := by
  simp only [fixedFlags, GetString_Set, HomeFlag, FlagChainID, FlagFrom, FlagNodeID, FlagIP,
    FlagPubKey, FlagGenesisFormat, Ne.symm h1, Ne.symm h2, Ne.symm h3, Ne.symm h4, Ne.symm h5,
    Ne.symm h6, Ne.symm h7, if_false]

theorem Equals_iff (a b : AccAddress) : AccAddress.Equals a b = true ↔ a = b := by
  unfold AccAddress.Equals
  cases a <;> cases b <;> simp

theorem amountIn_append_right (l r : Coins) (d : String) (h : ∀ c ∈ r, c.denom ≠ d) :
    amountIn (l ++ r) d = amountIn l d := by
  unfold amountIn
  rw [List.find?_append]
  have hr : r.find? (fun c => decide (c.denom = d)) = none := by
    rw [List.find?_eq_none]
    intro c hc
    simpa using h c hc
  rw [hr]
  cases l.find? (fun c => decide (c.denom = d)) <;> rfl

theorem amountIn_append_left (l r : Coins) (d : String) (h : ∀ c ∈ l, c.denom ≠ d) :
    amountIn (l ++ r) d = amountIn r d := by
  unfold amountIn
  rw [List.find?_append]
  have hl : l.find? (fun c => decide (c.denom = d)) = none := by
    rw [List.find?_eq_none]
    intro c hc
    simpa using h c hc
  rw [hl]
  rfl

theorem amountIn_cons_eq (c : Coin) (r : Coins) : amountIn (c :: r) c.denom = c.amount := by
  simp [amountIn]

theorem amountIn_nil (d : String) : amountIn [] d = 0 := rfl

theorem AmountOf_two (c0 c1 : Coin) (cs : Coins) (denom : String)
    (hmid : (c0 :: c1 :: cs).length / 2 < (c0 :: c1 :: cs).length) :
    AmountOf (c0 :: c1 :: cs) denom =
      if denom < ((c0 :: c1 :: cs)[(c0 :: c1 :: cs).length / 2]).denom then
        AmountOf ((c0 :: c1 :: cs).take ((c0 :: c1 :: cs).length / 2)) denom
      else if denom = ((c0 :: c1 :: cs)[(c0 :: c1 :: cs).length / 2]).denom then
        ((c0 :: c1 :: cs)[(c0 :: c1 :: cs).length / 2]).amount
      else AmountOf ((c0 :: c1 :: cs).drop ((c0 :: c1 :: cs).length / 2 + 1)) denom := by
  rw [AmountOf]

theorem AmountOf_sorted (n : Nat) : ∀ (coins : Coins) (denom : String),
    coins.length ≤ n → SortedCoins coins → AmountOf coins denom = amountIn coins denom := by
  induction n with
  | zero =>
    intro coins denom hlen _
    have : coins = [] := List.length_eq_zero.mp (by omega)
    subst this
    rw [AmountOf]; rfl
  | succ n ih =>
    intro coins denom hlen hs
    match coins, hlen, hs with
    | [], _, _ => rw [AmountOf]; rfl
    | [coin], _, _ =>
      rw [AmountOf]
      by_cases h : coin.denom = denom <;> simp [amountIn, h]
    | c0 :: c1 :: cs, hlen, hs =>
      have hmid : (c0 :: c1 :: cs).length / 2 < (c0 :: c1 :: cs).length :=
        Nat.div_lt_self (by simp) (by decide)
      rw [AmountOf_two c0 c1 cs denom hmid]
      generalize hL : c0 :: c1 :: cs = L at *
      generalize hm : L.length / 2 = m at *
      have hsplit : L = L.take m ++ L[m] :: L.drop (m + 1) := by
        rw [← List.drop_eq_getElem_cons hmid, List.take_append_drop]
      have hs2 : SortedCoins (L.take m ++ L[m] :: L.drop (m + 1)) := by
        rw [← hsplit]; exact hs
      unfold SortedCoins at hs2
      rw [List.pairwise_append, List.pairwise_cons] at hs2
      obtain ⟨hst, ⟨hmd, hsd⟩, hcross⟩ := hs2
      have hlt : ∀ c ∈ L.take m, c.denom < (L[m]).denom :=
        fun c hc => hcross c hc _ (List.mem_cons_self _ _)
      have hlenL : L.length ≤ n + 1 := hlen
      have hposL : 2 ≤ L.length := by rw [← hL]; simp
      by_cases h1 : denom < (L[m]).denom
      · rw [if_pos h1, ih _ denom (by rw [List.length_take]; omega) hst]
        conv_rhs => rw [hsplit]
        rw [amountIn_append_right]
        intro c hc
        rcases List.mem_cons.mp hc with rfl | hc
        · exact (ne_of_lt h1).symm
        · exact (ne_of_lt (lt_trans h1 (hmd c hc))).symm
      · rw [if_neg h1]
        by_cases h2 : denom = (L[m]).denom
        · rw [if_pos h2]
          conv_rhs => rw [hsplit]
          rw [amountIn_append_left _ _ _ (fun c hc => h2 ▸ ne_of_lt (hlt c hc)), h2,
            amountIn_cons_eq]
        · rw [if_neg h2, ih _ denom (by rw [List.length_drop]; omega) hsd]
          have h3 : (L[m]).denom < denom :=
            lt_of_le_of_ne (not_lt.mp h1) (Ne.symm h2)
          conv_rhs => rw [hsplit]
          rw [amountIn_append_left _ _ _ (fun c hc => ne_of_lt (lt_trans (hlt c hc) h3))]
          have : L[m] :: L.drop (m + 1) = [L[m]] ++ L.drop (m + 1) := rfl
          rw [this, amountIn_append_left]
          intro c hc
          rw [List.mem_singleton] at hc
          subst hc
          exact ne_of_lt h3

theorem accountLoop_eq_find (bondDenom : String) (key : AccAddress) (coins : Coins)
    (accs : List GenesisAccount) :
    accountLoop bondDenom key coins accs =
      match accs.find? (fun a => decide (a.address = key)) with
      | none => Except.ok false
      | some acc =>
        if AmountOf coins bondDenom > acc.amount then
          Except.error
            (GenTxError.insufficientFunds key acc.amount bondDenom (AmountOf coins bondDenom))
        else Except.ok true := by
  induction accs with
  | nil => rfl
  | cons a rest ih =>
    by_cases h : a.address = key
    · have he : AccAddress.Equals a.address key = true := (Equals_iff _ _).mpr h
      rw [accountLoop, if_pos he]
      simp only [List.find?_cons, h, decide_True]
    · have he : AccAddress.Equals a.address key = false := by
        rw [← Bool.not_eq_true, Equals_iff]; exact h
      simp only [accountLoop, he, List.find?_cons, h, decide_False]
      exact ih

theorem find_first_match (pre post : List GenesisAccount) (acc : GenesisAccount)
    (key : AccAddress) (hpre : ∀ a ∈ pre, a.address ≠ key) (hacc : acc.address = key) :
    (pre ++ acc :: post).find? (fun a => decide (a.address = key)) = some acc := by
  rw [List.find?_append]
  have hn : pre.find? (fun a => decide (a.address = key)) = none := by
    rw [List.find?_eq_none]
    intro a ha
    simpa using hpre a ha
  rw [hn]
  simp [List.find?_cons, hacc]

theorem accountInGenesis_eq_find (g : GenesisState) (key : AccAddress) (coins : Coins) :
    accountInGenesis g key coins =
      match g.accounts.find? (fun a => decide (a.address = key)) with
      | none => some (GenTxError.notInGenesis key)
      | some acc =>
        if AmountOf coins g.bondDenom > acc.amount then
          some (GenTxError.insufficientFunds key acc.amount g.bondDenom
            (AmountOf coins g.bondDenom))
        else none := by
  unfold accountInGenesis
  simp only [accountLoop_eq_find]
  cases g.accounts.find? (fun a => decide (a.address = key)) with
  | none => rfl
  | some acc =>
    by_cases h : AmountOf coins g.bondDenom > acc.amount
    · simp only [h, if_true]
    · simp only [h, if_false]
      rfl

end Cyberd.Cmd

/-! ## Theorems on `daemon/cmd/gentx.go` -/

namespace Cyberd.Cmd

/-- C8: after `prepareFlagsForTxCreateValidator` each of the flags amount, commission
rate, commission max rate, commission max change rate and min self delegation holds its
previous value when that was non-empty and otherwise its default ("100cyb", "0.1",
"0.2", "0.01", "1"); the moniker flag holds its previous value when non-empty and
otherwise the value of the key-name flag, which the function leaves as it was. -/
theorem prepareFlags_defaults (v : Viper) (nodeID ip chainID valPubKeyBech32 : String) :
    GetString (prepareFlagsForTxCreateValidator v nodeID ip chainID valPubKeyBech32) "amount"
      = (if GetString v "amount" = "" then "100cyb" else GetString v "amount") ∧
    GetString (prepareFlagsForTxCreateValidator v nodeID ip chainID valPubKeyBech32)
        "commission-rate"
      = (if GetString v "commission-rate" = "" then "0.1"
          else GetString v "commission-rate") ∧
    GetString (prepareFlagsForTxCreateValidator v nodeID ip chainID valPubKeyBech32)
        "commission-max-rate"
      = (if GetString v "commission-max-rate" = "" then "0.2"
          else GetString v "commission-max-rate") ∧
    GetString (prepareFlagsForTxCreateValidator v nodeID ip chainID valPubKeyBech32)
        "commission-max-change-rate"
      = (if GetString v "commission-max-change-rate" = "" then "0.01"
          else GetString v "commission-max-change-rate") ∧
    GetString (prepareFlagsForTxCreateValidator v nodeID ip chainID valPubKeyBech32)
        "min-self-delegation"
      = (if GetString v "min-self-delegation" = "" then "1"
          else GetString v "min-self-delegation") ∧
    GetString (prepareFlagsForTxCreateValidator v nodeID ip chainID valPubKeyBech32) "moniker"
      = (if GetString v "moniker" = "" then
          GetString (prepareFlagsForTxCreateValidator v nodeID ip chainID valPubKeyBech32) "name"
         else GetString v "moniker") ∧
    GetString (prepareFlagsForTxCreateValidator v nodeID ip chainID valPubKeyBech32) "name"
      = GetString v "name" := by
  rw [prepareFlags_eq]
  simp only [GetString_fillIfEmpty, String.reduceEq, if_false, if_true]
  refine ⟨?_, ?_, ?_, ?_, ?_, ?_, ?_⟩ <;>
    rw [GetString_fixedFlags _ _ _ _ _ _ (by decide) (by decide) (by decide) (by decide)
      (by decide) (by decide) (by decide)]

/-- C9 as stated fails: with one genesis account of address `[7]` holding 50 and bond
denomination "cyb", the coins 100 cyb then 9 atom (not sorted by denomination) give no
error, although the coins hold 100 cyb and the account only 50, while the coins 100 cyb
alone give the insufficient-funds error: a coin of another denomination changes the
result. -/
theorem accountInGenesis_unsorted_coins :
    accountInGenesis { accounts := [⟨[7], 50⟩], bondDenom := "cyb" } [7]
        [⟨"cyb", 100⟩, ⟨"atom", 9⟩] = none ∧
    accountInGenesis { accounts := [⟨[7], 50⟩], bondDenom := "cyb" } [7] [⟨"cyb", 100⟩]
      = some (GenTxError.insufficientFunds [7] 50 "cyb" 100) ∧
    amountIn [⟨"cyb", 100⟩, ⟨"atom", 9⟩] "cyb" = 100 ∧
    AmountOf [⟨"cyb", 100⟩, ⟨"atom", 9⟩] "cyb" = 0 := by
  refine ⟨?_, ?_, by decide, ?_⟩
  · simp [accountInGenesis, accountLoop, AccAddress.Equals, AmountOf]
    decide
  · simp [accountInGenesis, accountLoop, AccAddress.Equals, AmountOf]
  · simp [AmountOf]
    decide

/-- C9 (amended): `accountInGenesis` returns no error exactly when the account list has
an account with the given address and the first such account holds at least
`coins.AmountOf(bondDenom)`; it returns the "not in genesis" error exactly when no
account has the address; accounts after the first one with the address do not change the
result; and when the coins are sorted by denomination, as `sdk.ParseCoins` returns them,
`AmountOf` is the amount of the coin of the bond denomination, so coins of other
denominations do not change the result. -/
theorem accountInGenesis_spec (genesisState : GenesisState) (key : AccAddress) (coins : Coins) :
    (accountInGenesis genesisState key coins = none ↔
      ∃ acc, genesisState.accounts.find? (fun a => decide (a.address = key)) = some acc ∧
        acc.amount ≥ AmountOf coins genesisState.bondDenom) ∧
    (accountInGenesis genesisState key coins = some (GenTxError.notInGenesis key) ↔
      ∀ a ∈ genesisState.accounts, a.address ≠ key) ∧
    (∀ (pre post post2 : List GenesisAccount) (acc : GenesisAccount),
      genesisState.accounts = pre ++ acc :: post →
      (∀ a ∈ pre, a.address ≠ key) → acc.address = key →
      accountInGenesis { genesisState with accounts := pre ++ acc :: post2 } key coins =
        accountInGenesis genesisState key coins) ∧
    (SortedCoins coins →
      AmountOf coins genesisState.bondDenom = amountIn coins genesisState.bondDenom) ∧
    (∀ coins2 : Coins, SortedCoins coins → SortedCoins coins2 →
      amountIn coins2 genesisState.bondDenom = amountIn coins genesisState.bondDenom →
      accountInGenesis genesisState key coins2 = accountInGenesis genesisState key coins) := by
  refine ⟨?_, ?_, ?_, ?_, ?_⟩
  · rw [accountInGenesis_eq_find]
    cases genesisState.accounts.find? (fun a => decide (a.address = key)) with
    | none => simp
    | some acc =>
      by_cases h : AmountOf coins genesisState.bondDenom > acc.amount
      · simp only [h, if_true]
        constructor
        · intro hc; cases hc
        · rintro ⟨acc2, h2, h3⟩
          cases h2
          omega
      · simp only [h, if_false, true_iff]
        exact ⟨acc, rfl, by omega⟩
  · rw [accountInGenesis_eq_find]
    cases hf : genesisState.accounts.find? (fun a => decide (a.address = key)) with
    | none =>
      simp only [true_iff]
      intro a ha
      have := List.find?_eq_none.mp hf a ha
      simpa using this
    | some acc =>
      have hmem := List.mem_of_find?_eq_some hf
      have hkey : acc.address = key := by simpa using List.find?_some hf
      by_cases h : AmountOf coins genesisState.bondDenom > acc.amount
      · simp only [h, if_true]
        constructor
        · intro hc; cases hc
        · intro hall; exact absurd hkey (hall acc hmem)
      · simp only [h, if_false]
        constructor
        · intro hc; cases hc
        · intro hall; exact absurd hkey (hall acc hmem)
  · intro pre post post2 acc hacc hpre hk
    rw [accountInGenesis_eq_find, accountInGenesis_eq_find, hacc]
    simp only [find_first_match pre post acc key hpre hk,
      find_first_match pre post2 acc key hpre hk]
  · intro hs
    exact AmountOf_sorted coins.length coins _ (le_refl _) hs
  · intro coins2 hs hs2 heq
    rw [accountInGenesis_eq_find, accountInGenesis_eq_find,
      AmountOf_sorted coins.length coins _ (le_refl _) hs,
      AmountOf_sorted coins2.length coins2 _ (le_refl _) hs2, heq]

/-- C9 (amended) at a genesis with three accounts, two of them with the address `[7]`, and the
coins 9 atom and 100 cyb: the first account with the address holds 100, so there is no
error; dropping the later account or the atom coin changes nothing. -/
theorem accountInGenesis_spec_witness :
    accountInGenesis sampleGenesis [7] sampleCoins = none ∧
    accountInGenesis
        { sampleGenesis with accounts := [⟨[1, 2], 50⟩] ++ (⟨[7], 100⟩ : GenesisAccount) :: [] }
        [7] sampleCoins
      = accountInGenesis sampleGenesis [7] sampleCoins ∧
    AmountOf sampleCoins "cyb" = amountIn sampleCoins "cyb" ∧
    accountInGenesis sampleGenesis [7] [⟨"cyb", 100⟩]
      = accountInGenesis sampleGenesis [7] sampleCoins :=
  ⟨(accountInGenesis_spec sampleGenesis [7] sampleCoins).1.mpr
      ⟨⟨[7], 100⟩, by decide, by simp [sampleCoins, sampleGenesis, AmountOf]⟩,
   (accountInGenesis_spec sampleGenesis [7] sampleCoins).2.2.1
      [⟨[1, 2], 50⟩] [⟨[7], 5⟩] [] ⟨[7], 100⟩ rfl (by decide) rfl,
   (accountInGenesis_spec sampleGenesis [7] sampleCoins).2.2.2.1
      (by simp [SortedCoins, sampleCoins]; decide),
   (accountInGenesis_spec sampleGenesis [7] sampleCoins).2.2.2.2 [⟨"cyb", 100⟩]
      (by simp [SortedCoins, sampleCoins]; decide) (by simp [SortedCoins]) (by decide)⟩

end Cyberd.Cmd
